import Mathlib

/-!
Shallow embedding of the two components of the `code-editor` repository:
the single-pane `CodeEditor` wrapper (src/projects/code-editor/code-editor.ts)
and the two-pane `DiffEditor` wrapper (src/unnamed/part_000), both thin
adapters over the CodeMirror engine.

Documents are modelled as `List Char`; a CodeMirror transaction is modelled as
its change set, its transaction tags, and its state effects; compartments are
modelled as named slots holding the extension value last placed in them.
The engine's opaque extension values are modelled by the inductive `CmExt`,
with one constructor per extension the source actually builds.
-/

/-- An extension value, with one constructor per extension the source builds
and `custom` for opaque user-supplied extensions. `nil` is the empty list of
extensions, used by the source to clear a slot. -/
inductive CmExt where
  | nil
  | editableOf (value : Bool)
  | readOnlyOf (value : Bool)
  | oneDark
  | placeholderOf (text : String)
  | indentWithTabKeymap
  | indentUnitOf (unit : String)
  | lineWrappingExt
  | highlightWhitespaceExt
  | languageSupport (name : String)
  | basicSetupExt
  | minimalSetupExt
  | custom (id : Nat)
deriving DecidableEq

/-- The `Theme` input type: 'light' | 'dark' | Extension. -/
inductive Theme where
  | light
  | dark
  | custom (e : CmExt)
deriving DecidableEq

/-- The `Setup` input type: 'basic' | 'minimal' | null. -/
inductive Setup where
  | basic
  | minimal
  | noSetup
deriving DecidableEq

/-- The nine dynamic configuration fields of `CodeEditor`, one per compartment
declared in the source. -/
inductive ConfigField where
  | editable
  | readonly
  | theme
  | placeholder
  | indentWithTab
  | indentUnit
  | lineWrapping
  | highlightWhitespace
  | language
deriving DecidableEq

/-- The nine compartments of `CodeEditor` (source fields `_editableConf` ..
`_languageConf`); each holds the extension last reconfigured into it. -/
structure Compartments where
  editableConf : CmExt
  readonlyConf : CmExt
  themeConf : CmExt
  placeholderConf : CmExt
  indentWithTabConf : CmExt
  indentUnitConf : CmExt
  lineWrappingConf : CmExt
  highlightWhitespaceConf : CmExt
  languageConf : CmExt
deriving DecidableEq

/-- Read the compartment owned by a configuration field. -/
def getSlot (c : Compartments) : ConfigField → CmExt
  | .editable => c.editableConf
  | .readonly => c.readonlyConf
  | .theme => c.themeConf
  | .placeholder => c.placeholderConf
  | .indentWithTab => c.indentWithTabConf
  | .indentUnit => c.indentUnitConf
  | .lineWrapping => c.lineWrappingConf
  | .highlightWhitespace => c.highlightWhitespaceConf
  | .language => c.languageConf

/-- Replace the compartment owned by a configuration field. -/
def setSlot (c : Compartments) (f : ConfigField) (e : CmExt) : Compartments :=
  match f with
  | .editable => { c with editableConf := e }
  | .readonly => { c with readonlyConf := e }
  | .theme => { c with themeConf := e }
  | .placeholder => { c with placeholderConf := e }
  | .indentWithTab => { c with indentWithTabConf := e }
  | .indentUnit => { c with indentUnitConf := e }
  | .lineWrapping => { c with lineWrappingConf := e }
  | .highlightWhitespace => { c with highlightWhitespaceConf := e }
  | .language => { c with languageConf := e }

/-- All compartments as they stand in a freshly built extension tree:
the source initializes every compartment with `conf.of([])`. -/
def initCompartments : Compartments :=
  ⟨.nil, .nil, .nil, .nil, .nil, .nil, .nil, .nil, .nil⟩

/-- One entry of a transaction's change set:
`{from: .., to: .., insert: ..}` in the source. -/
structure ChangeSpec where
  fromPos : Nat
  toPos : Nat
  insert : List Char
deriving DecidableEq

/-- A transaction tag. `addToHistory` models `Transaction.addToHistory`;
`external` models the `External` marker the update listeners test for. -/
inductive Annot where
  | addToHistory (flag : Bool)
  | external (flag : Bool)
deriving DecidableEq

/-- A state effect carried by a transaction: a compartment reconfiguration
(`conf.reconfigure(..)`) or a full root reconfiguration
(`StateEffect.reconfigure.of(..)`). -/
inductive StateEffect where
  | reconfigureSlot (slot : ConfigField) (content : CmExt)
  | reconfigureRoot (exts : List CmExt)
deriving DecidableEq

/-- A dispatched transaction, as its three source-visible parts. -/
structure TransactionSpec where
  changes : List ChangeSpec
  annots : List Annot
  effects : List StateEffect
deriving DecidableEq

/-- Apply one change entry to a document: replace the span from `fromPos`
to `toPos` by `insert`. -/
def applyChange (doc : List Char) (c : ChangeSpec) : List Char :=
  doc.take c.fromPos ++ c.insert ++ doc.drop c.toPos

/-- Apply a change set to a document. -/
def applyChanges (doc : List Char) (cs : List ChangeSpec) : List Char :=
  cs.foldl applyChange doc

/-- Whether a change entry is the empty change. -/
def ChangeSpec.isEmptyChange (c : ChangeSpec) : Bool :=
  c.fromPos == c.toPos && c.insert == []

/-- The engine's `docChanged` flag: the transaction carries a non-empty
change set. -/
def docChangedB (cs : List ChangeSpec) : Bool :=
  cs.any fun c => !c.isEmptyChange

/-- The test `vu.transactions.some(tr => tr.annotation(External))` of both
update listeners: some transaction of the update carries the `External`
marker with a truthy value. -/
def hasExternalB (tr : TransactionSpec) : Bool :=
  tr.annots.any fun a =>
    match a with
    | .external b => b
    | _ => false

/-- Callbacks observable from `CodeEditor`'s update listener: the registered
form on-change callback and the `change` event emitter. -/
inductive Emission where
  | onChange (value : List Char)
  | changeEmit (value : List Char)
deriving DecidableEq

/-- The `CodeEditor._updateListener` body: on a document-changing update not
marked `External`, forward the new full content to the on-change callback and
then to the `change` event; otherwise do nothing. -/
def CodeEditor.updateListener (tr : TransactionSpec) (newDoc : List Char) : List Emission :=
  if docChangedB tr.changes && !hasExternalB tr then
    [.onChange newDoc, .changeEmit newDoc]
  else []

/-- State of one `EditorView`: its document, its compartments, the rest of the
root extension tree, and a generation counter that only view creation would
bump (dispatch never recreates the view). -/
structure EditorViewState where
  doc : List Char
  comparts : Compartments
  rootExts : List CmExt
  generation : Nat
deriving DecidableEq

/-- Apply one state effect to a view state. A root reconfiguration installs a
fresh extension tree whose compartments are again `conf.of([])`. -/
def applyEffect (st : EditorViewState) (e : StateEffect) : EditorViewState :=
  match e with
  | .reconfigureSlot f ext => { st with comparts := setSlot st.comparts f ext }
  | .reconfigureRoot exts => { st with comparts := initCompartments, rootExts := exts }

/-- Apply a transaction's changes and then its effects to a view state. -/
def applyTransaction (st : EditorViewState) (tr : TransactionSpec) : EditorViewState :=
  tr.effects.foldl applyEffect { st with doc := applyChanges st.doc tr.changes }

/-- `view.dispatch` on a `CodeEditor` view: the new view state together with
what the update listener emitted for this transaction. -/
def CodeEditor.viewDispatch (st : EditorViewState) (tr : TransactionSpec) :
    EditorViewState × List Emission :=
  (applyTransaction st tr, CodeEditor.updateListener tr (applyChanges st.doc tr.changes))

/-- Reading `view.state.doc.toString()`: the live document. -/
def currentValue (st : EditorViewState) : List Char :=
  st.doc

/-- A transaction carrying only state effects, as `_dispatchEffects` builds. -/
def mkEffectsTr (es : List StateEffect) : TransactionSpec :=
  { changes := [], annots := [], effects := es }

/-- A transaction reconfiguring a single compartment. -/
def mkSlotTr (f : ConfigField) (e : CmExt) : TransactionSpec :=
  mkEffectsTr [.reconfigureSlot f e]

/-- The transaction dispatched by `CodeEditor.setValue`: one change replacing
the whole document, tagged `Transaction.addToHistory.of(false)` and nothing
else. -/
def CodeEditor.setValueTr (docLen : Nat) (value : List Char) : TransactionSpec :=
  { changes := [{ fromPos := 0, toPos := docLen, insert := value }],
    annots := [.addToHistory false],
    effects := [] }

/-- The transaction dispatched by `CodeEditor.setEditable`. -/
def CodeEditor.setEditableTr (value : Bool) : TransactionSpec :=
  mkSlotTr .editable (.editableOf value)

/-- The transaction dispatched by `CodeEditor.setReadonly`. -/
def CodeEditor.setReadonlyTr (value : Bool) : TransactionSpec :=
  mkSlotTr .readonly (.readOnlyOf value)

/-- The transaction dispatched by `CodeEditor.setTheme`:
'light' clears the slot, 'dark' installs `oneDark`, any other value is
installed verbatim. -/
def CodeEditor.setThemeTr (value : Theme) : TransactionSpec :=
  mkSlotTr .theme
    (match value with
     | .light => .nil
     | .dark => .oneDark
     | .custom e => e)

/-- The transaction dispatched by `CodeEditor.setPlaceholder`: a falsy (empty)
string clears the slot. -/
def CodeEditor.setPlaceholderTr (value : String) : TransactionSpec :=
  mkSlotTr .placeholder (if value = "" then .nil else .placeholderOf value)

/-- The transaction dispatched by `CodeEditor.setIndentWithTab`. -/
def CodeEditor.setIndentWithTabTr (value : Bool) : TransactionSpec :=
  mkSlotTr .indentWithTab (if value then .indentWithTabKeymap else .nil)

/-- The transaction dispatched by `CodeEditor.setIndentUnit`: a falsy (empty)
string clears the slot. -/
def CodeEditor.setIndentUnitTr (value : String) : TransactionSpec :=
  mkSlotTr .indentUnit (if value = "" then .nil else .indentUnitOf value)

/-- The transaction dispatched by `CodeEditor.setLineWrapping`. -/
def CodeEditor.setLineWrappingTr (value : Bool) : TransactionSpec :=
  mkSlotTr .lineWrapping (if value then .lineWrappingExt else .nil)

/-- The transaction dispatched by `CodeEditor.setHighlightWhitespace`. -/
def CodeEditor.setHighlightWhitespaceTr (value : Bool) : TransactionSpec :=
  mkSlotTr .highlightWhitespace (if value then .highlightWhitespaceExt else .nil)

/-- The transaction dispatched by `CodeEditor.setExtensions`
(`StateEffect.reconfigure.of(value)`). -/
def CodeEditor.setExtensionsTr (exts : List CmExt) : TransactionSpec :=
  mkEffectsTr [.reconfigureRoot exts]

/-- A registered language: canonical name plus aliases
(`LanguageDescription`). -/
structure LanguageDescription where
  name : String
  aliasNames : List String
deriving DecidableEq

/-- A string lower-cased character by character, as `toLowerCase()` does. -/
def lowerChars (s : String) : List Char :=
  s.data.map Char.toLower

/-- The match test of `CodeEditor._findLanguage`'s inner loop: the requested
name equals the language's canonical name or one of its aliases, comparing
both sides lower-cased. -/
def langMatchesB (name : String) (l : LanguageDescription) : Bool :=
  (l.name :: l.aliasNames).any fun a => lowerChars name == lowerChars a

/-- `CodeEditor._findLanguage`: the first registered language whose name or
aliasNames matches the requested name case-insensitively. -/
def CodeEditor.findLanguage (langs : List LanguageDescription) (name : String) :
    Option LanguageDescription :=
  langs.find? (langMatchesB name)

/-- The diagnostic logged when a language is requested with no registry. -/
def msgNoLanguages : String :=
  "No supported languages. Please set the `languages` prop at first."

/-- The diagnostic logged when the requested language is not registered. -/
def msgLangNotFound (name : String) : String :=
  "Language not found: " ++ name

/-- The companion diagnostic listing the registered language names. -/
def msgSupportedNames (langs : List LanguageDescription) : String :=
  "Supported language names: " ++ String.intercalate ", " (langs.map fun l => l.name)

/-- What one call to `CodeEditor.setLanguage` decides to do. -/
inductive LangAction where
  | clear
  | errorEmptyRegistry
  | loadAndInstall (l : LanguageDescription)
  | errorNotFound
deriving DecidableEq

/-- The branch structure of `CodeEditor.setLanguage`: a falsy name or the
exact string "plaintext" clears the slot; with an empty registry the call
only logs; otherwise the name is looked up and, when found, the language's
support is loaded and installed. -/
def setLanguageAction (langs : List LanguageDescription) (lang : String) : LangAction :=
  if lang = "" ∨ lang = "plaintext" then .clear
  else if langs.length = 0 then .errorEmptyRegistry
  else
    match CodeEditor.findLanguage langs lang with
    | some l => .loadAndInstall l
    | none => .errorNotFound

/-- The state effects `setLanguage` dispatches synchronously. -/
def langActionSyncEffects : LangAction → List StateEffect
  | .clear => [.reconfigureSlot .language .nil]
  | _ => []

/-- The state effects `setLanguage` dispatches once the deferred language
load completes. -/
def langActionAsyncEffects : LangAction → List StateEffect
  | .loadAndInstall l => [.reconfigureSlot .language (.languageSupport l.name)]
  | _ => []

/-- The console diagnostics of one `setLanguage` call. The empty-registry
message is guarded by `if (this.view)` in the source; the not-found messages
come from `_findLanguage` unguarded. -/
def langActionLogs (viewExists : Bool) (langs : List LanguageDescription)
    (name : String) : LangAction → List String
  | .errorEmptyRegistry => if viewExists then [msgNoLanguages] else []
  | .errorNotFound => [msgLangNotFound name, msgSupportedNames langs]
  | _ => []

/-- A runtime failure of the JavaScript host: dereferencing the absent view
(`this.view.dispatch` with `view` still undefined) throws a TypeError. -/
inductive JsError where
  | typeError
deriving DecidableEq

/-- The `CodeEditor` component: its declarative inputs and its view handle,
which is absent until `ngOnInit` runs. -/
structure CodeEditorComp where
  view : Option EditorViewState
  value : List Char
  disabled : Bool
  readonly : Bool
  theme : Theme
  placeholder : String
  indentWithTab : Bool
  indentUnit : String
  lineWrapping : Bool
  highlightWhitespace : Bool
  languages : List LanguageDescription
  language : String
  setup : Setup
  extensions : List CmExt
deriving DecidableEq

/-- Result of running one `CodeEditor` method: the component afterwards, the
emissions and console diagnostics it produced, and the error it threw,
if any. -/
structure CERun where
  comp : CodeEditorComp
  ems : List Emission
  logs : List String
  thrown : Option JsError
deriving DecidableEq

/-- The root extension list `_getAllExtensions` rebuilds from the snapshot
(the update listener and the nine compartment declarations are structural and
live in `EditorViewState` itself). -/
def CodeEditor.getAllExtensions (c : CodeEditorComp) : List CmExt :=
  (match c.setup with
   | .basic => .basicSetupExt
   | .minimal => .minimalSetupExt
   | .noSetup => .nil) :: c.extensions

/-- `CodeEditor.setValue`: unguarded `this.view.dispatch` of the
full-document replacement. Before `ngOnInit` the view is absent and the call
throws. -/
def CodeEditor.setValue (c : CodeEditorComp) (value : List Char) : CERun :=
  match c.view with
  | none => ⟨c, [], [], some .typeError⟩
  | some st =>
    let r := CodeEditor.viewDispatch st (CodeEditor.setValueTr st.doc.length value)
    ⟨{ c with view := some r.1 }, r.2, [], none⟩

/-- `CodeEditor._dispatchEffects`: unguarded `this.view.dispatch({effects})`. -/
def CodeEditor.dispatchEffects (c : CodeEditorComp) (es : List StateEffect) : CERun :=
  match c.view with
  | none => ⟨c, [], [], some .typeError⟩
  | some st =>
    let r := CodeEditor.viewDispatch st (mkEffectsTr es)
    ⟨{ c with view := some r.1 }, r.2, [], none⟩

/-- `CodeEditor.setEditable` as a component method. -/
def CodeEditor.setEditable (c : CodeEditorComp) (value : Bool) : CERun :=
  CodeEditor.dispatchEffects c (CodeEditor.setEditableTr value).effects

/-- `CodeEditor.setReadonly` as a component method. -/
def CodeEditor.setReadonly (c : CodeEditorComp) (value : Bool) : CERun :=
  CodeEditor.dispatchEffects c (CodeEditor.setReadonlyTr value).effects

/-- `CodeEditor.setTheme` as a component method. -/
def CodeEditor.setTheme (c : CodeEditorComp) (value : Theme) : CERun :=
  CodeEditor.dispatchEffects c (CodeEditor.setThemeTr value).effects

/-- `CodeEditor.writeValue` of the form-binding protocol: guarded by
`if (this.view)`, hence a no-op before the view exists. -/
def CodeEditor.writeValue (c : CodeEditorComp) (value : List Char) : CERun :=
  match c.view with
  | none => ⟨c, [], [], none⟩
  | some _ => CodeEditor.setValue c value

/-- `CodeEditor.setDisabledState`: writes the `disabled` model signal and
then reconfigures the editable slot through `setEditable`. -/
def CodeEditor.setDisabledState (c : CodeEditorComp) (isDisabled : Bool) : CERun :=
  CodeEditor.setEditable { c with disabled := isDisabled } (!isDisabled)

/-- `CodeEditor.setLanguage` as a component method, including the console
diagnostics. The found-language branch only schedules a deferred load, so it
changes no component state synchronously. -/
def CodeEditor.setLanguage (c : CodeEditorComp) (lang : String) : CERun :=
  if lang = "" ∨ lang = "plaintext" then
    CodeEditor.dispatchEffects c (langActionSyncEffects .clear)
  else if c.languages.length = 0 then
    ⟨c, [], if c.view.isSome then [msgNoLanguages] else [], none⟩
  else
    match CodeEditor.findLanguage c.languages lang with
    | some _ => ⟨c, [], [], none⟩
    | none => ⟨c, [], [msgLangNotFound lang, msgSupportedNames c.languages], none⟩

/-- A transaction arriving at the view from a local user edit (or any other
dispatch), run through the component: only the view evolves; the component's
inputs are untouched. -/
def CodeEditor.userEdit (c : CodeEditorComp) (tr : TransactionSpec) : CERun :=
  match c.view with
  | none => ⟨c, [], [], none⟩
  | some st =>
    let r := CodeEditor.viewDispatch st tr
    ⟨{ c with view := some r.1 }, r.2, [], none⟩

/-- Which declared inputs an `ngOnChanges` call reports as changed. -/
structure SimpleChanges where
  value : Bool
  disabled : Bool
  readonly : Bool
  theme : Bool
  placeholder : Bool
  indentWithTab : Bool
  indentUnit : Bool
  lineWrapping : Bool
  highlightWhitespace : Bool
  language : Bool
  setup : Bool
  extensions : Bool
deriving DecidableEq

/-- Thread one conditional dispatch through an accumulating
(state, emissions) pair. -/
def dispatchAcc (s : EditorViewState × List Emission) (tr : TransactionSpec) :
    EditorViewState × List Emission :=
  let r := CodeEditor.viewDispatch s.1 tr
  (r.1, s.2 ++ r.2)

/-- `CodeEditor.ngOnChanges`: bails out while the view is absent, then runs
the per-field setters for exactly the changed inputs, in source order. -/
def CodeEditor.ngOnChanges (c : CodeEditorComp) (ch : SimpleChanges) : CERun :=
  match c.view with
  | none => ⟨c, [], [], none⟩
  | some st0 =>
    let s := (st0, ([] : List Emission))
    let s := if ch.value then dispatchAcc s (CodeEditor.setValueTr s.1.doc.length c.value) else s
    let s := if ch.disabled then dispatchAcc s (CodeEditor.setEditableTr (!c.disabled)) else s
    let s := if ch.readonly then dispatchAcc s (CodeEditor.setReadonlyTr c.readonly) else s
    let s := if ch.theme then dispatchAcc s (CodeEditor.setThemeTr c.theme) else s
    let s := if ch.placeholder then dispatchAcc s (CodeEditor.setPlaceholderTr c.placeholder) else s
    let s := if ch.indentWithTab then dispatchAcc s (CodeEditor.setIndentWithTabTr c.indentWithTab) else s
    let s := if ch.indentUnit then dispatchAcc s (CodeEditor.setIndentUnitTr c.indentUnit) else s
    let s := if ch.lineWrapping then dispatchAcc s (CodeEditor.setLineWrappingTr c.lineWrapping) else s
    let s := if ch.highlightWhitespace then dispatchAcc s (CodeEditor.setHighlightWhitespaceTr c.highlightWhitespace) else s
    let langPart :=
      if ch.language then
        let act := setLanguageAction c.languages c.language
        (dispatchAcc s (mkEffectsTr (langActionSyncEffects act)),
         langActionLogs true c.languages c.language act)
      else (s, [])
    let s := langPart.1
    let s := if ch.setup || ch.extensions then dispatchAcc s (CodeEditor.setExtensionsTr (CodeEditor.getAllExtensions c)) else s
    ⟨{ c with view := some s.1 }, s.2, langPart.2, none⟩

/-- The two sides of the merge view: 'a' (original) and 'b' (modified). -/
inductive Side where
  | a
  | b
deriving DecidableEq

/-- State of one merge-view sub-editor: its document and its single editable
compartment (the only compartment `DiffEditor` declares). -/
structure DiffSideState where
  doc : List Char
  editableConf : CmExt
deriving DecidableEq

/-- The merge view: the two sub-editors. -/
structure MergeViewState where
  a : DiffSideState
  b : DiffSideState
deriving DecidableEq

/-- The form-bound pair of the diff editor. -/
structure DiffEditorModel where
  original : List Char
  modified : List Char
deriving DecidableEq

/-- Callbacks observable from `DiffEditor`'s per-side update listeners: the
registered form on-change callback and the per-side value-change events. -/
inductive DiffEmission where
  | onChange (m : DiffEditorModel)
  | originalValueChange (value : List Char)
  | modifiedValueChange (value : List Char)
deriving DecidableEq

/-- The `DiffEditor` component: its two-way bound model values, its disabled
flag, and the merge-view handle, absent until `ngOnInit` runs. -/
structure DiffComp where
  mergeView : Option MergeViewState
  originalValue : List Char
  modifiedValue : List Char
  disabled : Bool
deriving DecidableEq

/-- Result of running one `DiffEditor` method (every view access is behind
optional chaining, so nothing throws and there are no diagnostics). -/
structure DRun where
  comp : DiffComp
  ems : List DiffEmission
deriving DecidableEq

/-- Select a side's sub-editor. -/
def mvGet (mv : MergeViewState) : Side → DiffSideState
  | .a => mv.a
  | .b => mv.b

/-- Replace a side's sub-editor. -/
def mvSet (mv : MergeViewState) : Side → DiffSideState → MergeViewState
  | .a, s => { mv with a := s }
  | .b, s => { mv with b := s }

/-- Apply a state effect to a sub-editor: only its editable compartment
exists to be reconfigured. -/
def applySideEffect (st : DiffSideState) (e : StateEffect) : DiffSideState :=
  match e with
  | .reconfigureSlot .editable ext => { st with editableConf := ext }
  | _ => st

/-- Apply a transaction's changes and effects to a sub-editor. -/
def applySideTransaction (st : DiffSideState) (tr : TransactionSpec) : DiffSideState :=
  tr.effects.foldl applySideEffect { st with doc := applyChanges st.doc tr.changes }

/-- Dispatch a transaction on one side of the merge view, running that side's
update listener (`DiffEditor._updateListener(editor)`): on a
document-changing update not marked `External`, call the on-change callback
with the edited side's new content paired with the other side's stored model
value, write the new content into the edited side's model signal, and emit
that side's value-change event. -/
def DiffEditor.sideDispatch (c : DiffComp) (mv : MergeViewState) (side : Side)
    (tr : TransactionSpec) : DRun :=
  let st := mvGet mv side
  let newDoc := applyChanges st.doc tr.changes
  let c2 := { c with mergeView := some (mvSet mv side (applySideTransaction st tr)) }
  if docChangedB tr.changes && !hasExternalB tr then
    match side with
    | .a =>
      ⟨{ c2 with originalValue := newDoc },
       [.onChange ⟨newDoc, c.modifiedValue⟩, .originalValueChange newDoc]⟩
    | .b =>
      ⟨{ c2 with modifiedValue := newDoc },
       [.onChange ⟨c.originalValue, newDoc⟩, .modifiedValueChange newDoc]⟩
  else ⟨c2, []⟩

/-- The transaction dispatched by `DiffEditor.setValue`: one change replacing
the whole document of that side, with no tags at all. -/
def DiffEditor.setValueTr (docLen : Nat) (value : List Char) : TransactionSpec :=
  { changes := [{ fromPos := 0, toPos := docLen, insert := value }],
    annots := [],
    effects := [] }

/-- The transaction dispatched by `DiffEditor.setEditable`. -/
def DiffEditor.setEditableTr (value : Bool) : TransactionSpec :=
  mkSlotTr .editable (.editableOf value)

/-- `DiffEditor.setValue`: guarded by `this.mergeView?.`, hence a no-op
before the merge view exists. -/
def DiffEditor.setValue (c : DiffComp) (side : Side) (value : List Char) : DRun :=
  match c.mergeView with
  | none => ⟨c, []⟩
  | some mv =>
    DiffEditor.sideDispatch c mv side (DiffEditor.setValueTr (mvGet mv side).doc.length value)

/-- `DiffEditor.setEditable`: guarded by `this.mergeView?.`. -/
def DiffEditor.setEditable (c : DiffComp) (side : Side) (value : Bool) : DRun :=
  match c.mergeView with
  | none => ⟨c, []⟩
  | some mv => DiffEditor.sideDispatch c mv side (DiffEditor.setEditableTr value)

/-- A transaction arriving at one side from a local user edit. -/
def DiffEditor.userEdit (c : DiffComp) (side : Side) (tr : TransactionSpec) : DRun :=
  match c.mergeView with
  | none => ⟨c, []⟩
  | some mv => DiffEditor.sideDispatch c mv side tr

/-- `DiffEditor.writeValue`: with a merge view present and an object value,
store both model signals, then run `setValue` on side 'a' and then on
side 'b'. -/
def DiffEditor.writeValue (c : DiffComp) (m : DiffEditorModel) : DRun :=
  match c.mergeView with
  | none => ⟨c, []⟩
  | some _ =>
    let c1 := { c with originalValue := m.original, modifiedValue := m.modified }
    let r1 := DiffEditor.setValue c1 .a m.original
    let r2 := DiffEditor.setValue r1.comp .b m.modified
    ⟨r2.comp, r1.ems ++ r2.ems⟩

/-- `DiffEditor.setDisabledState`: store the disabled flag and reconfigure
both sides' editable slots. -/
def DiffEditor.setDisabledState (c : DiffComp) (isDisabled : Bool) : DRun :=
  let c1 := { c with disabled := isDisabled }
  let r1 := DiffEditor.setEditable c1 .a (!isDisabled)
  let r2 := DiffEditor.setEditable r1.comp .b (!isDisabled)
  ⟨r2.comp, r1.ems ++ r2.ems⟩

/-- Sample compartments for concrete runs. -/
def demoComparts : Compartments :=
  ⟨.editableOf true, .readOnlyOf false, .nil, .nil, .nil, .nil, .nil, .nil, .nil⟩

/-- Sample view state: document "x". -/
def demoState : EditorViewState :=
  { doc := ['x'], comparts := demoComparts, rootExts := [.basicSetupExt], generation := 0 }

/-- Sample registered language: name "JavaScript", aliasNames ["js"]. -/
def jsLang : LanguageDescription :=
  { name := "JavaScript", aliasNames := ["js"] }

/-- Sample registry holding only `jsLang`. -/
def demoLangs : List LanguageDescription :=
  [jsLang]

/-- Sample component after `ngOnInit`, holding `demoState`. -/
def demoComp : CodeEditorComp :=
  { view := some demoState, value := ['x'], disabled := false, readonly := false,
    theme := .light, placeholder := "", indentWithTab := false, indentUnit := "",
    lineWrapping := false, highlightWhitespace := false, languages := demoLangs,
    language := "", setup := .basic, extensions := [] }

/-- Sample component before `ngOnInit`: no view exists yet. -/
def uninitComp : CodeEditorComp :=
  { demoComp with view := none }

/-- The characters of "hello". -/
def helloChars : List Char :=
  ['h', 'e', 'l', 'l', 'o']

/-- Sample merge view: side 'a' holds "x", side 'b' holds "y". -/
def demoMergeView : MergeViewState :=
  { a := { doc := ['x'], editableConf := .editableOf true },
    b := { doc := ['y'], editableConf := .editableOf true } }

/-- Sample diff component after `ngOnInit`. -/
def demoDiffComp : DiffComp :=
  { mergeView := some demoMergeView, originalValue := ['x'], modifiedValue := ['y'],
    disabled := false }

/-- Sample diff component before `ngOnInit`. -/
def uninitDiffComp : DiffComp :=
  { demoDiffComp with mergeView := none }

/-- A sample user edit: insert "ab" at the start of the document, with no
tags (as local edits have none of ours). -/
def demoEditTr : TransactionSpec :=
  { changes := [{ fromPos := 0, toPos := 0, insert := ['a', 'b'] }],
    annots := [],
    effects := [] }

/-- Replacing the whole document, as `setValue` does, yields exactly the
inserted value. -/
lemma applyChanges_fullReplace (doc v : List Char) :
    applyChanges doc [{ fromPos := 0, toPos := doc.length, insert := v }] = v := by
  simp [applyChanges, applyChange]

/-- A transaction whose effects reconfigure one compartment leaves every
other compartment as it was. -/
lemma getSlot_setSlot_ne (c : Compartments) (f g : ConfigField) (e : CmExt)
    (hg : g ≠ f) : getSlot (setSlot c f e) g = getSlot c g := by
  cases f <;> cases g <;> simp_all [getSlot, setSlot]

/-- Frame property of one dispatched transaction with respect to the
configuration field owning a compartment: every other field's compartment,
the document, the rest of the root extension tree and the view's generation
are untouched. -/
def framePreserves (f : ConfigField) (tr : TransactionSpec) : Prop :=
  ∀ (st : EditorViewState) (g : ConfigField), g ≠ f →
    getSlot (applyTransaction st tr).comparts g = getSlot st.comparts g ∧
    (applyTransaction st tr).doc = st.doc ∧
    (applyTransaction st tr).rootExts = st.rootExts ∧
    (applyTransaction st tr).generation = st.generation

/-- A single-slot reconfiguration transaction preserves the frame of its
field. -/
lemma frame_mkSlotTr (f : ConfigField) (e : CmExt) :
    framePreserves f (mkSlotTr f e) := by
  intro st g hg
  refine ⟨?_, ?_, ?_, ?_⟩ <;>
    simp [applyTransaction, mkSlotTr, mkEffectsTr, applyChanges, applyEffect,
      getSlot_setSlot_ne _ _ _ _ hg]

/-- A transaction with no effects and no changes preserves every frame. -/
lemma frame_empty (f : ConfigField) : framePreserves f (mkEffectsTr []) := by
  intro st g hg
  refine ⟨?_, ?_, ?_, ?_⟩ <;> simp [applyTransaction, mkEffectsTr, applyChanges]

/-- C1, counterexample: on an editor whose document is "x", the programmatic
`setValue("hello")` causes the update listener to invoke the registered
on-change callback and to emit the change event, so the number of emissions
attributable to the write is two, not zero: the dispatched transaction is
tagged only `addToHistory(false)`, never with the `External` marker the
suppression filter tests for. -/
theorem C1_counterexample :
    (CodeEditor.setValue demoComp helloChars).ems =
      [Emission.onChange helloChars, Emission.changeEmit helloChars] ∧
    [Emission.onChange helloChars, Emission.changeEmit helloChars] ≠ ([] : List Emission) :=
  ⟨rfl, by decide⟩

/-- C1 (amended): a programmatic `setValue` dispatches the full-document
replacement tagged only with `addToHistory(false)`; it is not tagged with
the `External` marker, so whenever the write actually changes the document
the update listener fires once, invoking the on-change callback and emitting
the change event with the new content. -/
theorem C1_amended_setValue_not_suppressed (st : EditorViewState) (v : List Char)
    (h : docChangedB (CodeEditor.setValueTr st.doc.length v).changes = true) :
    (CodeEditor.setValueTr st.doc.length v).annots = [Annot.addToHistory false] ∧
    hasExternalB (CodeEditor.setValueTr st.doc.length v) = false ∧
    (CodeEditor.viewDispatch st (CodeEditor.setValueTr st.doc.length v)).2 =
      [Emission.onChange v, Emission.changeEmit v] := by
  refine ⟨rfl, rfl, ?_⟩
  have hv := applyChanges_fullReplace st.doc v
  simp [CodeEditor.viewDispatch, CodeEditor.updateListener, h, CodeEditor.setValueTr] at hv ⊢
  simp [CodeEditor.setValueTr] at h
  simp [h, hv, hasExternalB]

/-- C1 (amended), witness at document "x" and value "hello". -/
theorem C1_amended_witness :
    (CodeEditor.viewDispatch demoState
        (CodeEditor.setValueTr demoState.doc.length helloChars)).2 =
      [Emission.onChange helloChars, Emission.changeEmit helloChars] :=
  (C1_amended_setValue_not_suppressed demoState helloChars (by decide)).2.2

/-- C2, counterexample: at document length 1 and value "x", the transaction
dispatched by the diff wrapper's `setValue` differs from the single-editor
wrapper's: the diff transaction carries no tags at all, in particular not
the `addToHistory(false)` tag, so the operation is not identical and is not
excluded from the undo history nor marked for the suppression filter. -/
theorem C2_counterexample :
    DiffEditor.setValueTr 1 ['x'] ≠ CodeEditor.setValueTr 1 ['x'] ∧
    (DiffEditor.setValueTr 1 ['x']).annots = [] := by
  exact ⟨by decide, rfl⟩

/-- C2 (amended): for every side's document length and value, the diff
wrapper's `setValue` dispatches the same atomic full-document replacement
(same change set, same absence of effects) as the single-editor wrapper's,
but its transaction carries no tags: it is neither excluded from the undo
history nor tagged with the `External` marker of the suppression filter. -/
theorem C2_amended_same_replace_no_tags (docLen : Nat) (v : List Char) :
    (DiffEditor.setValueTr docLen v).changes = (CodeEditor.setValueTr docLen v).changes ∧
    (DiffEditor.setValueTr docLen v).effects = (CodeEditor.setValueTr docLen v).effects ∧
    (DiffEditor.setValueTr docLen v).annots = [] ∧
    hasExternalB (DiffEditor.setValueTr docLen v) = false ∧
    Annot.addToHistory false ∉ (DiffEditor.setValueTr docLen v).annots := by
  refine ⟨rfl, rfl, rfl, rfl, by simp [DiffEditor.setValueTr]⟩

/-- C3: each dynamic configuration field's setter dispatches a transaction
that reconfigures only that field's own compartment: every other field's
compartment, the document, the rest of the root extension tree and the
view's generation (the view is never recreated) are left unchanged. The
language field's setter does so both for its synchronous dispatch and for
the deferred install after a language load. -/
theorem C3_one_slot_per_field :
    (∀ b, framePreserves .editable (CodeEditor.setEditableTr b)) ∧
    (∀ b, framePreserves .readonly (CodeEditor.setReadonlyTr b)) ∧
    (∀ t, framePreserves .theme (CodeEditor.setThemeTr t)) ∧
    (∀ s, framePreserves .placeholder (CodeEditor.setPlaceholderTr s)) ∧
    (∀ b, framePreserves .indentWithTab (CodeEditor.setIndentWithTabTr b)) ∧
    (∀ s, framePreserves .indentUnit (CodeEditor.setIndentUnitTr s)) ∧
    (∀ b, framePreserves .lineWrapping (CodeEditor.setLineWrappingTr b)) ∧
    (∀ b, framePreserves .highlightWhitespace (CodeEditor.setHighlightWhitespaceTr b)) ∧
    (∀ langs lang,
      framePreserves .language
        (mkEffectsTr (langActionSyncEffects (setLanguageAction langs lang))) ∧
      framePreserves .language
        (mkEffectsTr (langActionAsyncEffects (setLanguageAction langs lang)))) := by
  refine ⟨fun b => frame_mkSlotTr _ _, fun b => frame_mkSlotTr _ _,
    fun t => frame_mkSlotTr _ _, fun s => frame_mkSlotTr _ _,
    fun b => frame_mkSlotTr _ _, fun s => frame_mkSlotTr _ _,
    fun b => frame_mkSlotTr _ _, fun b => frame_mkSlotTr _ _,
    fun langs lang => ⟨?_, ?_⟩⟩ <;>
  cases setLanguageAction langs lang <;>
    first
      | exact frame_empty _
      | exact frame_mkSlotTr _ _

/-- C3, witness: reconfiguring the editable compartment on the sample state
leaves the readonly compartment untouched. -/
theorem C3_witness :
    getSlot (applyTransaction demoState (CodeEditor.setEditableTr true)).comparts
        ConfigField.readonly =
      getSlot demoState.comparts ConfigField.readonly :=
  ((C3_one_slot_per_field.1 true) demoState ConfigField.readonly (by decide)).1

/-- C4: on an editor whose view exists, `setValue(X)` followed by reading the
live document yields exactly X, whatever the previous document was, and the
call throws nothing. -/
theorem C4_roundTrip (c : CodeEditorComp) (st : EditorViewState) (v : List Char)
    (hview : c.view = some st) :
    (CodeEditor.setValue c v).comp.view.map currentValue = some v ∧
    (CodeEditor.setValue c v).thrown = none := by
  simp [CodeEditor.setValue, hview, CodeEditor.viewDispatch, applyTransaction,
    CodeEditor.setValueTr, currentValue, applyChanges_fullReplace]

/-- C4, witness at document "x" and value "hello". -/
theorem C4_roundTrip_witness :
    (CodeEditor.setValue demoComp helloChars).comp.view.map currentValue =
        some helloChars ∧
    (CodeEditor.setValue demoComp helloChars).thrown = none :=
  C4_roundTrip demoComp demoState helloChars rfl

/-- C5: with a name that is neither empty nor the sentinel, if any registered
language's canonical name or alias matches the requested name modulo letter
case, the lookup resolves to a registered matching language (the first one),
`setLanguage` decides to load it, and the deferred completion installs that
language's support into the language compartment. -/
theorem C5_case_insensitive_lookup (langs : List LanguageDescription) (name : String)
    (h1 : name ≠ "") (h2 : name ≠ "plaintext")
    (h3 : ∃ L ∈ langs, langMatchesB name L = true) :
    ∃ L, CodeEditor.findLanguage langs name = some L ∧ L ∈ langs ∧
      langMatchesB name L = true ∧
      setLanguageAction langs name = LangAction.loadAndInstall L ∧
      langActionAsyncEffects (setLanguageAction langs name) =
        [StateEffect.reconfigureSlot ConfigField.language
          (CmExt.languageSupport L.name)] := by
  obtain ⟨L0, hL0, hm0⟩ := h3
  have hfind : (CodeEditor.findLanguage langs name).isSome := by
    rw [CodeEditor.findLanguage, List.find?_isSome]
    exact ⟨L0, hL0, hm0⟩
  obtain ⟨L, hL⟩ := Option.isSome_iff_exists.mp hfind
  rw [CodeEditor.findLanguage] at hL
  have hmem := List.mem_of_find?_eq_some hL
  have hp := List.find?_some hL
  have hlen : ¬langs.length = 0 := by
    intro h0
    rw [List.length_eq_zero] at h0
    subst h0
    cases hL0
  have hcond : ¬(name = "" ∨ name = "plaintext") := by
    rintro (h | h)
    · exact h1 h
    · exact h2 h
  have hact : setLanguageAction langs name = LangAction.loadAndInstall L := by
    rw [setLanguageAction, if_neg hcond, if_neg hlen, CodeEditor.findLanguage, hL]
  exact ⟨L, by rw [CodeEditor.findLanguage, hL], hmem, hp, hact,
    by rw [hact, langActionAsyncEffects]⟩

/-- C5, witness: with "JavaScript"/alias "js" registered, requesting "JS"
resolves to it and schedules its install. -/
theorem C5_case_insensitive_lookup_witness :
    ∃ L, CodeEditor.findLanguage demoLangs "JS" = some L ∧ L ∈ demoLangs ∧
      langMatchesB "JS" L = true ∧
      setLanguageAction demoLangs "JS" = LangAction.loadAndInstall L ∧
      langActionAsyncEffects (setLanguageAction demoLangs "JS") =
        [StateEffect.reconfigureSlot ConfigField.language
          (CmExt.languageSupport L.name)] :=
  C5_case_insensitive_lookup demoLangs "JS" (by decide) (by decide)
    ⟨jsLang, by decide, by decide⟩

/-- C6, counterexample: requesting "Plaintext" (capital P) does not clear
the language compartment: the sentinel comparison `lang == 'plaintext'` is
case-sensitive, so with "JavaScript"/"js" registered the call performs a
lookup, fails, dispatches nothing, and logs the not-found diagnostics. -/
theorem C6_counterexample :
    setLanguageAction demoLangs "Plaintext" = LangAction.errorNotFound ∧
    setLanguageAction demoLangs "Plaintext" ≠ LangAction.clear ∧
    langActionSyncEffects (setLanguageAction demoLangs "Plaintext") = [] ∧
    langActionLogs true demoLangs "Plaintext"
        (setLanguageAction demoLangs "Plaintext") =
      [msgLangNotFound "Plaintext", msgSupportedNames demoLangs] := by
  refine ⟨by decide, by decide, by decide, by decide⟩

/-- C6 (amended): `setLanguage` clears the language compartment with no
lookup exactly when the requested name is the empty string or the exact
lower-case sentinel "plaintext"; the sentinel comparison is case-sensitive,
so other casings such as "Plaintext" are looked up like ordinary names. -/
theorem C6_amended_sentinel_exact (langs : List LanguageDescription) (lang : String)
    (h : lang = "" ∨ lang = "plaintext") :
    setLanguageAction langs lang = LangAction.clear ∧
    langActionSyncEffects (setLanguageAction langs lang) =
      [StateEffect.reconfigureSlot ConfigField.language CmExt.nil] := by
  rw [setLanguageAction, if_pos h]
  exact ⟨rfl, rfl⟩

/-- C6 (amended), witness at the empty string. -/
theorem C6_amended_sentinel_exact_witness :
    setLanguageAction demoLangs "" = LangAction.clear ∧
    langActionSyncEffects (setLanguageAction demoLangs "") =
      [StateEffect.reconfigureSlot ConfigField.language CmExt.nil] :=
  C6_amended_sentinel_exact demoLangs "" (Or.inl rfl)

/-- C7: on an editor whose view exists, a `setLanguage` call with a
non-sentinel name that is unregistered, or made while the registry is empty,
returns with the component (hence the language compartment and all other
state) unchanged, emits nothing, throws nothing, and produces at least one
console diagnostic. -/
theorem C7_failed_lookup_logged_noop (c : CodeEditorComp) (st : EditorViewState)
    (name : String) (hview : c.view = some st)
    (h1 : name ≠ "") (h2 : name ≠ "plaintext")
    (h3 : c.languages = [] ∨ CodeEditor.findLanguage c.languages name = none) :
    ∃ logs, CodeEditor.setLanguage c name = ⟨c, [], logs, none⟩ ∧ logs ≠ [] := by
  have hcond : ¬(name = "" ∨ name = "plaintext") := by
    rintro (h | h)
    · exact h1 h
    · exact h2 h
  rw [CodeEditor.setLanguage, if_neg hcond]
  by_cases hlen : c.languages.length = 0
  · refine ⟨[msgNoLanguages], ?_, by simp⟩
    rw [if_pos hlen, hview]
    rfl
  · have hfind : CodeEditor.findLanguage c.languages name = none := by
      rcases h3 with h3 | h3
      · exact absurd (by rw [h3]; rfl) hlen
      · exact h3
    refine ⟨[msgLangNotFound name, msgSupportedNames c.languages], ?_, by simp⟩
    rw [if_neg hlen, hfind]

/-- C7, witness: with an empty registry and an existing view, requesting
"js" is a logged no-op. -/
theorem C7_failed_lookup_logged_noop_witness :
    ∃ logs, CodeEditor.setLanguage { demoComp with languages := [] } "js" =
        ⟨{ demoComp with languages := [] }, [], logs, none⟩ ∧ logs ≠ [] :=
  C7_failed_lookup_logged_noop { demoComp with languages := [] } demoState "js"
    rfl (by decide) (by decide) (Or.inl rfl)

/-- C8, counterexample: before the view exists, `CodeEditor.setValue`
dereferences the absent view (`this.view.dispatch`) and throws a TypeError,
so calling a setter before the component is set up is not a harmless no-op. -/
theorem C8_counterexample :
    CodeEditor.setValue uninitComp helloChars =
      ⟨uninitComp, [], [], some JsError.typeError⟩ := by
  rfl

/-- C8 (amended): before the views exist, the guarded entry points are
no-ops: `writeValue` and `ngOnChanges` on the single editor, and `setValue`,
`setEditable`, `writeValue` and incoming edits on the diff editor (all
behind `mergeView?.`); `setDisabledState` on the diff editor still writes
the disabled signal before its guarded dispatches; but the single editor's
direct setters (`setValue`, `setEditable`, `setReadonly`, `setTheme`,
`setLanguage` with a sentinel name, and `setDisabledState`, which also
writes the disabled signal first) dereference the absent view and throw a
TypeError. -/
theorem C8_amended_guards (c : CodeEditorComp) (d : DiffComp)
    (v w : List Char) (b : Bool) (t : Theme) (side : Side) (m : DiffEditorModel)
    (tr : TransactionSpec) (ch : SimpleChanges)
    (hc : c.view = none) (hd : d.mergeView = none) :
    CodeEditor.writeValue c v = ⟨c, [], [], none⟩ ∧
    CodeEditor.ngOnChanges c ch = ⟨c, [], [], none⟩ ∧
    DiffEditor.setValue d side w = ⟨d, []⟩ ∧
    DiffEditor.setEditable d side b = ⟨d, []⟩ ∧
    DiffEditor.writeValue d m = ⟨d, []⟩ ∧
    DiffEditor.userEdit d side tr = ⟨d, []⟩ ∧
    DiffEditor.setDisabledState d b = ⟨{ d with disabled := b }, []⟩ ∧
    CodeEditor.setValue c v = ⟨c, [], [], some JsError.typeError⟩ ∧
    CodeEditor.setEditable c b = ⟨c, [], [], some JsError.typeError⟩ ∧
    CodeEditor.setReadonly c b = ⟨c, [], [], some JsError.typeError⟩ ∧
    CodeEditor.setTheme c t = ⟨c, [], [], some JsError.typeError⟩ ∧
    CodeEditor.setLanguage c "" = ⟨c, [], [], some JsError.typeError⟩ ∧
    CodeEditor.setDisabledState c b =
      ⟨{ c with disabled := b }, [], [], some JsError.typeError⟩ := by
  refine ⟨?_, ?_, ?_, ?_, ?_, ?_, ?_, ?_, ?_, ?_, ?_, ?_, ?_⟩ <;>
    simp [CodeEditor.writeValue, CodeEditor.ngOnChanges, DiffEditor.setValue,
      DiffEditor.setEditable, DiffEditor.writeValue, DiffEditor.userEdit,
      DiffEditor.setDisabledState, CodeEditor.setValue, CodeEditor.setEditable,
      CodeEditor.setReadonly, CodeEditor.setTheme, CodeEditor.setLanguage,
      CodeEditor.setDisabledState, CodeEditor.dispatchEffects, hc, hd]

/-- C8 (amended), witness on the sample components before setup. -/
theorem C8_amended_guards_witness :
    CodeEditor.writeValue uninitComp helloChars = ⟨uninitComp, [], [], none⟩ ∧
    CodeEditor.ngOnChanges uninitComp
        ⟨true, true, true, true, true, true, true, true, true, true, true, true⟩ =
      ⟨uninitComp, [], [], none⟩ ∧
    DiffEditor.setValue uninitDiffComp Side.a helloChars = ⟨uninitDiffComp, []⟩ ∧
    DiffEditor.setEditable uninitDiffComp Side.a false = ⟨uninitDiffComp, []⟩ ∧
    DiffEditor.writeValue uninitDiffComp ⟨['x'], ['y']⟩ = ⟨uninitDiffComp, []⟩ ∧
    DiffEditor.userEdit uninitDiffComp Side.a demoEditTr = ⟨uninitDiffComp, []⟩ ∧
    DiffEditor.setDisabledState uninitDiffComp true =
      ⟨{ uninitDiffComp with disabled := true }, []⟩ ∧
    CodeEditor.setValue uninitComp helloChars =
      ⟨uninitComp, [], [], some JsError.typeError⟩ ∧
    CodeEditor.setEditable uninitComp true =
      ⟨uninitComp, [], [], some JsError.typeError⟩ ∧
    CodeEditor.setReadonly uninitComp true =
      ⟨uninitComp, [], [], some JsError.typeError⟩ ∧
    CodeEditor.setTheme uninitComp Theme.dark =
      ⟨uninitComp, [], [], some JsError.typeError⟩ ∧
    CodeEditor.setLanguage uninitComp "" =
      ⟨uninitComp, [], [], some JsError.typeError⟩ ∧
    CodeEditor.setDisabledState uninitComp true =
      ⟨{ uninitComp with disabled := true }, [], [], some JsError.typeError⟩ :=
  C8_amended_guards uninitComp uninitDiffComp helloChars helloChars true Theme.dark
    Side.a ⟨['x'], ['y']⟩ demoEditTr
    ⟨true, true, true, true, true, true, true, true, true, true, true, true⟩ rfl rfl

/-- C9, counterexample: a local user edit inserting "ab" into the document
"x" makes the update listener invoke the on-change callback and emit the
change event with the new content "abx", but the component's bound `value`
field still holds "x": the listener never writes the new content back (the
`value` input is not written by the single-editor wrapper). -/
theorem C9_counterexample :
    (CodeEditor.userEdit demoComp demoEditTr).ems =
      [Emission.onChange ['a', 'b', 'x'], Emission.changeEmit ['a', 'b', 'x']] ∧
    (CodeEditor.userEdit demoComp demoEditTr).comp.value = ['x'] ∧
    (['x'] : List Char) ≠ ['a', 'b', 'x'] :=
  ⟨rfl, rfl, by decide⟩

/-- C9 (amended): on a view-holding component, a document-changing edit not
marked `External` makes the update listener invoke the on-change callback
and emit the change event, each with the new full content, and nothing else:
in particular every component input, including the bound current-value
field, is left exactly as it was. -/
theorem C9_amended_forward_without_writeback (c : CodeEditorComp)
    (st : EditorViewState) (tr : TransactionSpec)
    (hview : c.view = some st) (hdoc : docChangedB tr.changes = true)
    (hext : hasExternalB tr = false) :
    CodeEditor.userEdit c tr =
      ⟨{ c with view := some (applyTransaction st tr) },
       [Emission.onChange (applyChanges st.doc tr.changes),
        Emission.changeEmit (applyChanges st.doc tr.changes)], [], none⟩ := by
  simp [CodeEditor.userEdit, hview, CodeEditor.viewDispatch,
    CodeEditor.updateListener, hdoc, hext]

/-- C9 (amended), witness: the "ab" edit on the sample component. -/
theorem C9_amended_forward_without_writeback_witness :
    CodeEditor.userEdit demoComp demoEditTr =
      ⟨{ demoComp with view := some (applyTransaction demoState demoEditTr) },
       [Emission.onChange (applyChanges demoState.doc demoEditTr.changes),
        Emission.changeEmit (applyChanges demoState.doc demoEditTr.changes)],
       [], none⟩ :=
  C9_amended_forward_without_writeback demoComp demoState demoEditTr rfl
    (by decide) (by decide)

/-- C10: on a diff component whose merge view exists, a document-changing
edit not marked `External` on side 'a' invokes the on-change callback with
the pair of the side's new content and the stored modified value, writes the
new content into the original-value model and emits the original
value-change event; symmetrically, an edit on side 'b' pairs the stored
original value with the new content and updates the modified side. -/
theorem C10_diff_pairing (d : DiffComp) (mv : MergeViewState) (tr : TransactionSpec)
    (hmv : d.mergeView = some mv) (hdoc : docChangedB tr.changes = true)
    (hext : hasExternalB tr = false) :
    ((DiffEditor.userEdit d Side.a tr).ems =
      [DiffEmission.onChange ⟨applyChanges mv.a.doc tr.changes, d.modifiedValue⟩,
       DiffEmission.originalValueChange (applyChanges mv.a.doc tr.changes)] ∧
     (DiffEditor.userEdit d Side.a tr).comp.originalValue =
       applyChanges mv.a.doc tr.changes ∧
     (DiffEditor.userEdit d Side.a tr).comp.modifiedValue = d.modifiedValue) ∧
    ((DiffEditor.userEdit d Side.b tr).ems =
      [DiffEmission.onChange ⟨d.originalValue, applyChanges mv.b.doc tr.changes⟩,
       DiffEmission.modifiedValueChange (applyChanges mv.b.doc tr.changes)] ∧
     (DiffEditor.userEdit d Side.b tr).comp.modifiedValue =
       applyChanges mv.b.doc tr.changes ∧
     (DiffEditor.userEdit d Side.b tr).comp.originalValue = d.originalValue) := by
  refine ⟨⟨?_, ?_, ?_⟩, ⟨?_, ?_, ?_⟩⟩ <;>
    simp [DiffEditor.userEdit, hmv, DiffEditor.sideDispatch, hdoc, hext, mvGet]

/-- C10, witness: the "ab" edit on each side of the sample diff component
("x" original, "y" modified). -/
theorem C10_diff_pairing_witness :
    ((DiffEditor.userEdit demoDiffComp Side.a demoEditTr).ems =
      [DiffEmission.onChange
         ⟨applyChanges demoMergeView.a.doc demoEditTr.changes,
          demoDiffComp.modifiedValue⟩,
       DiffEmission.originalValueChange
         (applyChanges demoMergeView.a.doc demoEditTr.changes)] ∧
     (DiffEditor.userEdit demoDiffComp Side.a demoEditTr).comp.originalValue =
       applyChanges demoMergeView.a.doc demoEditTr.changes ∧
     (DiffEditor.userEdit demoDiffComp Side.a demoEditTr).comp.modifiedValue =
       demoDiffComp.modifiedValue) ∧
    ((DiffEditor.userEdit demoDiffComp Side.b demoEditTr).ems =
      [DiffEmission.onChange
         ⟨demoDiffComp.originalValue,
          applyChanges demoMergeView.b.doc demoEditTr.changes⟩,
       DiffEmission.modifiedValueChange
         (applyChanges demoMergeView.b.doc demoEditTr.changes)] ∧
     (DiffEditor.userEdit demoDiffComp Side.b demoEditTr).comp.modifiedValue =
       applyChanges demoMergeView.b.doc demoEditTr.changes ∧
     (DiffEditor.userEdit demoDiffComp Side.b demoEditTr).comp.originalValue =
       demoDiffComp.originalValue) :=
  C10_diff_pairing demoDiffComp demoMergeView demoEditTr rfl (by decide) (by decide)
